import Mathlib

/-!
Verification of the shadho search-space partitioning, ranking and scheduling
core against its specification.

The definitions below are a shallow embedding of the Python source:

* `complexity`                — `shadho/heuristics/complexity.py`
* `BaseDomain.generate`       — `shadho/backend/base/domain.py`
* `split_spec`                — `shadho/backend/base/db.py` (`BaseBackend.split_spec`)
* `BaseBackend.generate`      — `shadho/backend/base/db.py`
* `BaseBackend.register_result` / `BaseBackend.get_optimal` — same file
* `Shadho.assign_to_ccs` / `Shadho.failure` — `shadho/shadho.py`

Python runtime errors (NameError on an undefined identifier, AttributeError,
KeyError, TypeError, ZeroDivisionError, IndexError) are made explicit with an
`Except PyErr` result wherever the translated code can raise.  Machine floats
of the source are modelled as rationals; the random draws made by
`scipy.stats` distributions are supplied by an explicit `Oracle` argument.
-/

/-- A Python runtime error, as raised by the translated code paths. -/
inductive PyErr where
  | nameError (n : String)
  | attributeError (attr : String)
  | keyError (key : String)
  | typeError
  | indexError
  | zeroDivisionError
deriving DecidableEq, Repr

/-- A dynamically typed Python value: a number, a string, `None`, or a list.
Sampled hyperparameter values and `Result.loss` / extra metrics live here. -/
inductive Val where
  | num (q : ℚ)
  | str (s : String)
  | null
  | listV (xs : List Val)

/-- The `domain` attribute of a search space: a continuous `scipy.stats`
distribution (represented by the endpoints `a b` of its `interval(0.9999)`,
the only data the translated code reads from it), a list of discrete
choices, or a single constant (including Python `None` as `.scalar .null`). -/
inductive DomainSpace where
  | dist (a b : ℚ)
  | list (xs : List Val)
  | scalar (v : Val)

/-- `shadho.heuristics.complexity.complexity(space)`: `2 + ||b - a||` for a
continuous distribution with 99.99% interval `(a, b)`; `2 - 1/n` for a
non-empty list of length `n`; `1` otherwise (empty list, constant, None). -/
def complexity : DomainSpace → ℚ
  | .dist a b => 2 + |b - a|
  | .list xs => if 0 < xs.length then 2 - 1 / (xs.length : ℚ) else 1
  | .scalar _ => 1

/-- The value-scaling transform named by a Domain's `scaling` attribute
(`shadho/scaling.py`).  Only `linear` (the identity) occurs in the claims
under verification; the logarithmic scalings are real-valued numerics that
no verified input exercises. -/
inductive Scaling where
  | linear
deriving DecidableEq

/-- `shadho.scaling.scale_value(value, scaling)`: the `linear` scale returns
the value unchanged. -/
def scale_value (v : Val) : Scaling → Val
  | .linear => v

/-- The random draws made inside one `generate()` call: `draw` is the value
produced by `next_value(self.domain, self.strategy)` for a continuous
distribution (`random_search` calls `domain.rvs()`), and `ridx` is the
integer drawn from `scipy.stats.randint(0, len(domain))` for a discrete
list (reduced mod the list length, the support of `randint`). -/
structure Oracle where
  draw : Val
  ridx : ℕ

/-- The Domain data model (`shadho/backend/base/domain.py` together with the
attributes set by `shadho/backend/json/domain.py.__init__`): a slash-
delimited `path`, the sampling `domain`, `strategy` and `scaling`, the
`exhaustive` flag with its cursor `exhaustive_idx`, and the ids of the
Values drawn from this domain. -/
structure DomainRec where
  id : String
  path : String
  domain : DomainSpace
  strategy : String
  scaling : Scaling
  exhaustive : Bool
  exhaustive_idx : ℕ
  values : List String

/-- `BaseDomain.generate(self)` (`shadho/backend/base/domain.py`, lines
67-103), returning the generated value and the (possibly mutated) domain:

1. a continuous distribution is sampled via `strategy` and scaled;
2. otherwise, if `exhaustive`, the element at the cursor is returned and the
   cursor advanced, or `None` once the cursor has passed the last element
   (the cursor is left unchanged there); on a non-list domain, Python's
   `len(self.domain)` raises `TypeError`;
3. otherwise a non-empty list yields a uniformly drawn element, scaled;
4. otherwise the domain itself (a constant, or the empty list) is returned. -/
def BaseDomain.generate (d : DomainRec) (w : Oracle) : Except PyErr (Val × DomainRec) :=
  match d.domain with
  | .dist _ _ => .ok (scale_value w.draw d.scaling, d)
  | .list xs =>
      if d.exhaustive then
        if h : d.exhaustive_idx < xs.length then
          .ok (xs.get ⟨d.exhaustive_idx, h⟩,
               { d with exhaustive_idx := d.exhaustive_idx + 1 })
        else
          .ok (.null, d)
      else if 0 < xs.length then
        .ok (scale_value (xs.getD (w.ridx % xs.length) .null) d.scaling, d)
      else
        .ok (.listV xs, d)
  | .scalar v =>
      if d.exhaustive then .error .typeError
      else .ok (v, d)

/-- The domain state after one `generate()` call (unchanged if the call
raised). -/
def genState (w : Oracle) (d : DomainRec) : DomainRec :=
  match BaseDomain.generate d w with
  | .ok (_, d2) => d2
  | .error _ => d

/-- A fully specified leaf of the search-space specification: the contents
of a dict with `domain`, `strategy` and `scaling` keys. -/
structure LeafSpec where
  domain : DomainSpace
  strategy : String
  scaling : Scaling

/-- A nested search-space specification (`spec` argument of
`BaseBackend.split_spec`): a raw scalar (auto-wrapped into a constant leaf),
a fully specified leaf dict, or a nested mapping whose reserved keys
`exclusive` and `optional` are carried as flags and whose remaining keys
appear as `children` in dictionary iteration order. -/
inductive Spec where
  | scalar (v : Val)
  | leaf (l : LeafSpec)
  | node (exclusive optional : Bool) (children : List (String × Spec))

/-- A leaf extended with its root-to-leaf path, as produced by
`split_spec` (the deep copy `c` with `c['path'] = path`). -/
structure SplitLeaf where
  path : String
  domain : DomainSpace
  strategy : String
  scaling : Scaling

/-- The deep copy of a leaf spec with its path stamped on
(`c = copy.deepcopy(spec); c['path'] = path`). -/
def LeafSpec.withPath (l : LeafSpec) (path : String) : SplitLeaf :=
  { path := path, domain := l.domain, strategy := l.strategy,
    scaling := l.scaling }

/-- The auto-wrapping of a raw scalar into a constant leaf:
`{'domain': spec, 'strategy': 'random', 'scaling': 'linear'}`. -/
def wrapScalar (v : Val) : LeafSpec :=
  { domain := .scalar v, strategy := "random", scaling := .linear }

/-- `'/'.join([path, str(key)]) if path != '' else str(key)`. -/
def joinPath (path key : String) : String :=
  if path ≠ "" then path ++ "/" ++ key else key

mutual

/-- `BaseBackend.split_spec(spec, path)` (`shadho/backend/base/db.py`, lines
179-242).  A leaf (or auto-wrapped scalar) yields one leaf-set holding the
path-stamped leaf.  A nested node starts from `[]` when `exclusive`, else
from `[[]]`, folds its children through `split_children`, and appends one
empty leaf-set when `optional`. -/
def split_spec (s : Spec) (path : String) : List (List SplitLeaf) :=
  match s with
  | .scalar v => [[(wrapScalar v).withPath path]]
  | .leaf l => [[l.withPath path]]
  | .node exclusive optional children =>
      let spaces :=
        split_children exclusive path children
          (if exclusive then [] else [[]])
      if optional then spaces ++ [[]] else spaces
  termination_by sizeOf s

/-- The `for key in spec` loop of `split_spec`: each non-reserved child is
split at the extended path; an `exclusive` node concatenates the child's
leaf-sets onto the accumulator, a non-exclusive node replaces the
accumulator by the cross product `[space + s | space ∈ spaces, s ∈ split]`. -/
def split_children (exclusive : Bool) (path : String)
    (children : List (String × Spec)) (spaces : List (List SplitLeaf)) :
    List (List SplitLeaf) :=
  match children with
  | [] => spaces
  | (key, child) :: rest =>
      let split := split_spec child (joinPath path key)
      split_children exclusive path rest
        (if exclusive then spaces ++ split
         else (spaces.map (fun space => split.map (fun s2 => space ++ s2))).flatten)
  termination_by sizeOf children

end

mutual

/-- The leaves of a specification, path-stamped, in dictionary iteration
order: the reference list against which `split_spec`'s leaf-sets are
compared. -/
def specLeaves (s : Spec) (path : String) : List SplitLeaf :=
  match s with
  | .scalar v => [(wrapScalar v).withPath path]
  | .leaf l => [l.withPath path]
  | .node _ _ children => specLeavesChildren path children
  termination_by sizeOf s

/-- The leaves of a node's children, concatenated in order. -/
def specLeavesChildren (path : String) (children : List (String × Spec)) :
    List SplitLeaf :=
  match children with
  | [] => []
  | (key, child) :: rest =>
      specLeaves child (joinPath path key) ++ specLeavesChildren path rest
  termination_by sizeOf children

end

mutual

/-- `true` iff no node of the specification is marked `exclusive` or
`optional`. -/
def noAlt (s : Spec) : Bool :=
  match s with
  | .scalar _ => true
  | .leaf _ => true
  | .node exclusive optional children =>
      !exclusive && !optional && noAltChildren children
  termination_by sizeOf s

/-- `noAlt` over a children list. -/
def noAltChildren (children : List (String × Spec)) : Bool :=
  match children with
  | [] => true
  | (_, child) :: rest => noAlt child && noAltChildren rest
  termination_by sizeOf children

end

/-- `true` iff no node is marked `exclusive` or `optional`, except that the
root itself may be marked `optional`. -/
def noAltRootOpt (s : Spec) : Bool :=
  match s with
  | .node exclusive _ children => !exclusive && noAltChildren children
  | s => noAlt s

/-- The `optional` flag of the root node (`false` for a leaf or scalar). -/
def rootOptional : Spec → Bool
  | .node _ optional _ => optional
  | _ => false

/-- The exception classes of `shadho/backend/utils.py` — the only error
types the backend package defines.  There is no `EmptySpecError` anywhere
in the codebase. -/
inductive BackendError where
  | invalidObjectClassError (objclass : String)
  | invalidObjectError
deriving DecidableEq

/-- A call to `split_spec` viewed through Python's exception model: the
body of `BaseBackend.split_spec` contains no `raise` statement and invokes
only non-raising operations (`isinstance`, `copy.deepcopy`, string joins,
list appends), so every call returns normally with the computed list of
leaf-sets — it never raises a backend error. -/
def split_spec_call (s : Spec) (path : String) :
    Except BackendError (List (List SplitLeaf)) :=
  .ok (split_spec s path)

/-- For an `exclusive` node the children loop is a fold of list
concatenations: the accumulator is extended by each child's leaf-sets in
order, and no cross product is formed. -/
theorem split_children_exclusive (path : String) :
    ∀ (children : List (String × Spec)) (spaces : List (List SplitLeaf)),
      split_children true path children spaces =
        spaces ++
          children.flatMap (fun c => split_spec c.2 (joinPath path c.1)) := by
  intro children
  induction children with
  | nil => intro spaces; simp [split_children]
  | cons c rest ih =>
      intro spaces
      obtain ⟨key, child⟩ := c
      simp [split_children, ih, List.flatMap_cons, List.append_assoc]

mutual

/-- On a specification free of `exclusive` and `optional` markers,
`split_spec` produces exactly one leaf-set: the spec's leaves in order. -/
theorem split_spec_noAlt (s : Spec) (h : noAlt s = true) (path : String) :
    split_spec s path = [specLeaves s path] := by
  match s with
  | .scalar v => simp [split_spec, specLeaves]
  | .leaf l => simp [split_spec, specLeaves]
  | .node exclusive optional children =>
      simp only [noAlt, Bool.and_eq_true, Bool.not_eq_true'] at h
      obtain ⟨⟨hex, hopt⟩, hch⟩ := h
      subst hex; subst hopt
      rw [split_spec]
      simp only [Bool.false_eq_true, if_false]
      rw [split_children_noAlt path children hch []]
      simp [specLeaves]
  termination_by sizeOf s

/-- The non-exclusive children loop run from a single accumulated leaf-set,
on children free of `exclusive`/`optional`: the cross product degenerates
to appending each child's single leaf-set. -/
theorem split_children_noAlt (path : String)
    (children : List (String × Spec)) (h : noAltChildren children = true)
    (acc : List SplitLeaf) :
    split_children false path children [acc] =
      [acc ++ specLeavesChildren path children] := by
  match children with
  | [] => simp [split_children, specLeavesChildren]
  | (key, child) :: rest =>
      simp only [noAltChildren, Bool.and_eq_true] at h
      obtain ⟨hc, hrest⟩ := h
      rw [split_children, split_spec_noAlt child hc (joinPath path key)]
      simp only [Bool.false_eq_true, if_false, List.map_cons, List.map_nil,
        List.flatten, List.append_nil]
      rw [split_children_noAlt path rest hrest
        (acc ++ specLeaves child (joinPath path key))]
      simp [specLeavesChildren, List.append_assoc]
  termination_by sizeOf children

end

/-- A sample fully specified leaf used in concrete splitter inputs. -/
def leafW : LeafSpec :=
  { domain := .list [.num 1, .num 2], strategy := "random",
    scaling := .linear }

/-- A spec with an `exclusive` node beneath a non-exclusive root:
`{'a': {'exclusive': True, 'x': leaf, 'y': leaf}, 'b': leaf}`. -/
def specDup : Spec :=
  .node false false
    [("a", .node true false [("x", .leaf leafW), ("y", .leaf leafW)]),
     ("b", .leaf leafW)]

/-- C3: for a spec node marked `exclusive`, `split_spec` returns exactly the
concatenation of the children's own leaf-set lists, in child order — never a
cross product combining leaf-sets across different children.  (When the node
is additionally marked `optional`, the single extra empty leaf-set is
appended after that concatenation; for a plain `exclusive` node the result
is the concatenation itself.) -/
theorem split_spec_exclusive_concatenates
    (children : List (String × Spec)) (optional : Bool) (path : String) :
    split_spec (.node true optional children) path =
      children.flatMap (fun c => split_spec c.2 (joinPath path c.1)) ++
        (if optional then [[]] else []) := by
  rw [split_spec]
  rw [split_children_exclusive path children]
  cases optional <;> simp

/-- C2 (amended): on a spec none of whose nodes is marked `exclusive` or
`optional` — except that the root may be `optional` — `split_spec` returns
exactly one leaf-set containing every leaf of the spec exactly once, in
order, plus the one extra empty leaf-set contributed by a root `optional`
marking.  (The unrestricted claim is false: see
`split_spec_duplicated_path_counterexample`.) -/
theorem split_spec_disjoint_noAlt (s : Spec) (h : noAltRootOpt s = true)
    (path : String) :
    split_spec s path =
      [specLeaves s path] ++ (if rootOptional s then [[]] else []) := by
  match s with
  | .scalar v => simp [split_spec, specLeaves, rootOptional]
  | .leaf l => simp [split_spec, specLeaves, rootOptional]
  | .node exclusive optional children =>
      simp only [noAltRootOpt, Bool.and_eq_true, Bool.not_eq_true'] at h
      obtain ⟨hex, hch⟩ := h
      subst hex
      rw [split_spec]
      simp only [Bool.false_eq_true, if_false]
      rw [split_children_noAlt path children hch []]
      cases optional <;> simp [specLeaves, rootOptional]

/-- Witness for `split_spec_disjoint_noAlt` at the concrete spec
`{'a': leaf, 'optional': True}`. -/
theorem split_spec_disjoint_noAlt_witness :
    noAltRootOpt (.node false true [("a", .leaf leafW)]) = true ∧
      split_spec (.node false true [("a", .leaf leafW)]) "" =
        [specLeaves (.node false true [("a", .leaf leafW)]) ""] ++ [[]] := by
  have h : noAltRootOpt (.node false true [("a", .leaf leafW)]) = true := by
    simp [noAltRootOpt, noAltChildren, noAlt]
  refine ⟨h, ?_⟩
  have h2 := split_spec_disjoint_noAlt (.node false true [("a", .leaf leafW)]) h ""
  simpa [rootOptional] using h2

/-- C2 (counterexample): on `specDup`, the leaf at path `"b"` occurs in two
distinct leaf-sets — the cross product over the non-exclusive root
duplicates the sibling leaf across the leaf-sets contributed by the
`exclusive` child — refuting "no path appears in two leaf-sets". -/
theorem split_spec_duplicated_path_counterexample :
    (split_spec specDup "").map (List.map SplitLeaf.path) =
        [["a/x", "b"], ["a/y", "b"]] ∧
      (split_spec specDup "").countP
          (fun ls => ls.any (fun l => l.path == "b")) = 2 := by
  have h : split_spec specDup "" =
      [[leafW.withPath "a/x", leafW.withPath "b"],
       [leafW.withPath "a/y", leafW.withPath "b"]] := by
    simp [specDup, split_spec, split_children, joinPath]
  rw [h]
  constructor
  · simp [LeafSpec.withPath]
  · rfl

/-- C9 (counterexample): splitting the spec `{'exclusive': True}` — only an
`exclusive` marker, no children — returns normally with the empty list of
leaf-sets.  No exception is raised: `BaseBackend.split_spec` has no raise
path, and the backend defines no `EmptySpecError` (its only error classes
are those of `BackendError`, from `shadho/backend/utils.py`). -/
theorem split_spec_empty_exclusive_not_rejected :
    split_spec_call (.node true false []) "" = .ok [] := by
  simp [split_spec_call, split_spec, split_children]

/-- C9 (amended): an empty spec splits into exactly one leaf-set with zero
domains; a spec that is only `exclusive` with no children splits into zero
leaf-sets, returned silently as a normal value rather than rejected with
an error. -/
theorem split_spec_empty_specs :
    split_spec (.node false false []) "" = [[]] ∧
      split_spec (.node true false []) "" = [] ∧
      split_spec_call (.node true false []) "" = .ok [] := by
  refine ⟨?_, ?_, ?_⟩ <;> simp [split_spec_call, split_spec, split_children]

/-- C10: for an exhaustive Domain over a list, each `generate()` call
returns the element at the current cursor index and advances the cursor by
one; once the cursor has passed the last element every call returns `None`
(`Val.null`) without raising, leaving the domain — hence every subsequent
call — unchanged (no wrap-around). -/
theorem BaseDomain_generate_exhaustive (d : DomainRec) (xs : List Val)
    (hdom : d.domain = .list xs) (hex : d.exhaustive = true) (w : Oracle) :
    (∀ h : d.exhaustive_idx < xs.length,
        BaseDomain.generate d w =
          .ok (xs.get ⟨d.exhaustive_idx, h⟩,
               { d with exhaustive_idx := d.exhaustive_idx + 1 })) ∧
      (xs.length ≤ d.exhaustive_idx →
        BaseDomain.generate d w = .ok (.null, d) ∧
          ∀ k : ℕ, (genState w)^[k] d = d) := by
  constructor
  · intro h
    simp [BaseDomain.generate, hdom, hex, h]
  · intro h
    have hnlt : ¬d.exhaustive_idx < xs.length := not_lt.mpr h
    refine ⟨by simp [BaseDomain.generate, hdom, hex, hnlt], ?_⟩
    intro k
    induction k with
    | zero => simp
    | succ n ih =>
        rw [Function.iterate_succ_apply', ih]
        simp [genState, BaseDomain.generate, hdom, hex, hnlt]

/-- An exhaustive Domain over the two-element list `[10, 20]`, cursor at a
given position. -/
def exhaustW (i : ℕ) : DomainRec :=
  { id := "d1", path := "x", domain := .list [.num 10, .num 20],
    strategy := "random", scaling := .linear, exhaustive := true,
    exhaustive_idx := i, values := [] }

/-- Witness for `BaseDomain_generate_exhaustive`: with the cursor at 0 the
element `10` is returned and the cursor advances; with the cursor at 2
(past the end) the call returns `None` and the state is a fixpoint. -/
theorem BaseDomain_generate_exhaustive_witness :
    BaseDomain.generate (exhaustW 0) ⟨.null, 0⟩ =
        .ok (.num 10, { exhaustW 0 with exhaustive_idx := 1 }) ∧
      BaseDomain.generate (exhaustW 2) ⟨.null, 0⟩ =
        .ok (.null, exhaustW 2) ∧
      (genState ⟨.null, 0⟩)^[3] (exhaustW 2) = exhaustW 2 := by
  refine ⟨?_, ?_, ?_⟩
  · exact (BaseDomain_generate_exhaustive (exhaustW 0) [.num 10, .num 20]
      rfl rfl ⟨.null, 0⟩).1 (by simp [exhaustW])
  · exact ((BaseDomain_generate_exhaustive (exhaustW 2) [.num 10, .num 20]
      rfl rfl ⟨.null, 0⟩).2 (by simp [exhaustW])).1
  · exact ((BaseDomain_generate_exhaustive (exhaustW 2) [.num 10, .num 20]
      rfl rfl ⟨.null, 0⟩).2 (by simp [exhaustW])).2 3

/-- C5: `complexity` returns `2 + ||b - a||` on a continuous distribution
with 99.99% interval `(a, b)`; `2 - 1/n` on a non-empty list of length `n`
(so `complexity([1]) = 1` and `complexity([1,2,3,4]) = 1.75`), strictly
increasing with `n` but always below 2; and `1` on an empty list, a
constant, or `None`. -/
theorem complexity_spec :
    (∀ a b : ℚ, complexity (.dist a b) = 2 + |b - a|) ∧
      (∀ xs : List Val, xs ≠ [] →
        complexity (.list xs) = 2 - 1 / (xs.length : ℚ)) ∧
      (complexity (.list [.num 1]) = 1 ∧
        complexity (.list [.num 1, .num 2, .num 3, .num 4]) = 7 / 4) ∧
      (∀ xs ys : List Val, 0 < xs.length → xs.length < ys.length →
        complexity (.list xs) < complexity (.list ys) ∧
          complexity (.list ys) < 2) ∧
      (complexity (.list []) = 1 ∧ ∀ v : Val, complexity (.scalar v) = 1) := by
  refine ⟨fun a b => rfl, ?_, ⟨by norm_num [complexity], by norm_num [complexity]⟩,
    ?_, ⟨rfl, fun v => rfl⟩⟩
  · intro xs hxs
    have h : 0 < xs.length := List.length_pos.mpr hxs
    simp [complexity, h]
  · intro xs ys hx hxy
    have hy : 0 < ys.length := lt_trans hx hxy
    have hx2 : (0 : ℚ) < xs.length := by exact_mod_cast hx
    have hy2 : (0 : ℚ) < ys.length := by exact_mod_cast hy
    have hxy2 : (xs.length : ℚ) < ys.length := by exact_mod_cast hxy
    constructor
    · simp only [complexity, if_pos hx, if_pos hy]
      have h := one_div_lt_one_div_of_lt hx2 hxy2
      linarith
    · simp only [complexity, if_pos hy]
      have h : 0 < 1 / (ys.length : ℚ) := by positivity
      linarith

/-- Witness for `complexity_spec` at concrete lists. -/
theorem complexity_spec_witness :
    complexity (.list [.num 1, .num 2]) = 2 - 1 / 2 ∧
      complexity (.list [.num 1]) <
          complexity (.list [.num 1, .num 2, .num 3]) ∧
        complexity (.list [.num 1, .num 2, .num 3]) < 2 := by
  refine ⟨?_, ?_⟩
  · have h := complexity_spec.2.1 [.num 1, .num 2] (by simp)
    simpa using h
  · exact complexity_spec.2.2.2.1 [.num 1] [.num 1, .num 2, .num 3]
      (by simp) (by simp)

/-- A nested Python dict value: either a stored hyperparameter value or a
nested dict (association list in insertion order). -/
inductive PVal where
  | value (v : Val)
  | dict (entries : List (String × PVal))

/-- Dict lookup `curr[key]` / membership `key in curr`. -/
def pget (d : List (String × PVal)) (k : String) : Option PVal :=
  (d.find? (·.1 == k)).map (·.2)

/-- Dict assignment `curr[key] = v`: replaces the value at an existing key
in place, otherwise appends the new key (Python insertion order). -/
def pset (d : List (String × PVal)) (k : String) (v : PVal) :
    List (String × PVal) :=
  if (d.find? (·.1 == k)).isSome then
    d.map (fun p => if p.1 == k then (k, v) else p)
  else d ++ [(k, v)]

/-- The parameter-nesting loop of `BaseBackend.generate`: walk `path`,
creating empty sub-dicts for missing keys (`if path[i] not in curr:
curr[path[i]] = {}`), and store the value at the final component
(`curr[path[-1]] = value.value`).  Descending through a key already bound
to a non-dict raises `TypeError` in Python (`none` here).  `path` is never
empty: `str.split('/')` always returns at least one component. -/
def pinsert (d : List (String × PVal)) (path : List String) (v : Val) :
    Option (List (String × PVal)) :=
  match path with
  | [] => none
  | [k] => some (pset d k (.value v))
  | k :: rest =>
      match pget d k with
      | none => (pinsert [] rest v).map (fun sub => pset d k (.dict sub))
      | some (.dict sub) =>
          (pinsert sub rest v).map (fun sub2 => pset d k (.dict sub2))
      | some (.value _) => none

/-- Helper for `pySplit`: split a character list at every separator. -/
def splitChar (sep : Char) : List Char → List (List Char)
  | [] => [[]]
  | c :: rest =>
      match splitChar sep rest with
      | [] => [[]]
      | g :: gs => if c = sep then [] :: g :: gs else (c :: g) :: gs

/-- Python `str.split(sep)` for a one-character separator: splits at every
occurrence, and `''.split('/') == ['']` — the result is never empty. -/
def pySplit (s : String) (sep : Char) : List String :=
  (splitChar sep s.toList).map (fun cs => String.mk cs)

/-- The Value data model: one sampled value for one Domain in one Result. -/
structure ValueRec where
  id : String
  value : Val
  domain : String
  result : String

/-- The Result data model: one trial, with nullable loss, free-form extra
metrics, a resubmission counter, the owning Model reference and the ids of
its Values. -/
structure ResultRec where
  id : String
  loss : Option ℚ
  results : Option Val
  submissions : ℕ
  model : Option String
  values : List String

/-- The Model data model: one disjoint search, with optional heuristic
state and references to its Domains and Results. -/
structure ModelRec where
  id : String
  priority : Option (List ℚ)
  complexity : Option ℚ
  rank : Option ℤ
  domains : List String
  results : List String

/-- The backend store: the four object classes of the data model, as held
by a backend satisfying the documented `find`/`update`/`count` contract of
`BaseBackend` (`find` returns the object with the given id or `None`;
`update` upserts; `count` returns the number of stored objects of the
class). -/
structure Store where
  models : List ModelRec
  domains : List DomainRec
  results : List ResultRec
  values : List ValueRec

/-- `find('model', id)`. -/
def Store.findModel (db : Store) (i : String) : Option ModelRec :=
  db.models.find? (·.id == i)

/-- `find('domain', id)`. -/
def Store.findDomain (db : Store) (i : String) : Option DomainRec :=
  db.domains.find? (·.id == i)

/-- `find('result', id)`. -/
def Store.findResult (db : Store) (i : String) : Option ResultRec :=
  db.results.find? (·.id == i)

/-- `find('value', id)`. -/
def Store.findValue (db : Store) (i : String) : Option ValueRec :=
  db.values.find? (·.id == i)

/-- `update(obj)` for a Value: upsert by id. -/
def Store.upsertValue (db : Store) (v : ValueRec) : Store :=
  if (db.values.find? (·.id == v.id)).isSome then
    { db with values := db.values.map (fun y => if y.id == v.id then v else y) }
  else { db with values := db.values ++ [v] }

/-- `update(obj)` for a Result: upsert by id. -/
def Store.upsertResult (db : Store) (r : ResultRec) : Store :=
  if (db.results.find? (·.id == r.id)).isSome then
    { db with results := db.results.map (fun y => if y.id == r.id then r else y) }
  else { db with results := db.results ++ [r] }

/-- The `for domain in model.domains` loop of `BaseBackend.generate`
(`shadho/backend/base/db.py`, lines 314-342).  For each domain: look it up,
split its path on `'/'`, create a Value carrying the domain id, the new
result id and the freshly generated value, and nest the value into `params`
— `''.split('/') == ['']`, so `len(path) > 0` always holds and the
`elif len(path) == 1 and path[0] == ''` branch (bare-value params) is
unreachable.  The iteration then runs `self.update(value)` followed by
`self.update(space)` — and the name `space` is defined neither in
`generate` nor at module scope in `base/db.py`, so the first iteration
raises `NameError`. -/
def BaseBackend.generate_loop (db : Store) (rid : String) (w : Oracle) :
    List String → List String → ResultRec → List (String × PVal) →
    Except PyErr (Store × ResultRec × List (String × PVal))
  | [], _, result, params => .ok (db, result, params)
  | did :: _, vids, result, params =>
      match db.findDomain did with
      | none => .error (.attributeError "path")
      | some domain =>
          let path := pySplit domain.path '/'
          let vid := vids.headD "v0"
          match BaseDomain.generate domain w with
          | .error e => .error e
          | .ok (v, domain2) =>
              let value : ValueRec :=
                { id := vid, value := v, domain := domain.id, result := rid }
              match pinsert params path v with
              | none => .error .typeError
              | some _params2 =>
                  let _result2 :=
                    { result with values := result.values ++ [value.id] }
                  let _domain3 :=
                    { domain2 with values := domain2.values ++ [value.id] }
                  let _db2 := db.upsertValue value
                  .error (.nameError "space")

/-- `BaseBackend.generate(model_id)` (`shadho/backend/base/db.py`, lines
290-345): create a Result, sample one value per Domain of the model and
assemble the nested parameter dict.  `rid` and `vids` supply the ids that
`create` would mint; `w` supplies the random draws.  The created Result is
linked to no model (`create('result')` sets no model reference). -/
def BaseBackend.generate (db : Store) (model_id : String) (rid : String)
    (vids : List String) (w : Oracle) :
    Except PyErr (Store × String × List (String × PVal)) :=
  match db.findModel model_id with
  | none => .error (.attributeError "domains")
  | some model =>
      let result : ResultRec :=
        { id := rid, loss := none, results := none, submissions := 0,
          model := none, values := [] }
      match BaseBackend.generate_loop db rid w model.domains vids result [] with
      | .error e => .error e
      | .ok (db2, result2, params) =>
          .ok (db2.upsertResult result2, rid, params)

/-- `BaseBackend.register_result(result_id, loss, results)`
(`shadho/backend/base/db.py`, lines 347-380).  With a null loss nothing is
stored and `False` is returned (the resubmission branch is an unimplemented
TODO).  With a non-null loss the Result's loss/extra are stored and the
Model is fetched; `model.add_result` mutates only the in-memory object (no
`self.update(model)` follows).  `reorder = self.count('results') %
self.update_frequency` counts every Result in the database — not the
Model's completed Results — and when the trigger condition holds the code
calls `self.update_priority(model)`: no class in the backend hierarchy
defines `update_priority` (the recompute-and-append logic is
`calculate_priority`), so Python raises `AttributeError` instead of
recomputing the priority and returning `True`. -/
def BaseBackend.register_result (db : Store) (update_frequency : ℕ)
    (result_id : String) (loss : Option ℚ) (results : Option Val) :
    Except PyErr (Store × Bool) :=
  match db.findResult result_id with
  | none => .error (.attributeError "loss")
  | some result =>
      match loss with
      | none => .ok (db, false)
      | some _ =>
          let result2 := { result with loss := loss, results := results }
          let db2 := db.upsertResult result2
          match result.model with
          | none => .error (.attributeError "add_result")
          | some mid =>
              match db2.findModel mid with
              | none => .error (.attributeError "add_result")
              | some model =>
                  let _model2 :=
                    { model with results := model.results ++ [result2.id] }
                  let reorder := db2.results.length % update_frequency
                  if model.priority ≠ none ∧ reorder = 0 then
                    .error (.attributeError "update_priority")
                  else .ok (db2, false)

/-- The `for result in results` loop of `BaseBackend.get_optimal`
(`shadho/backend/base/db.py`, lines 421-426).  On the first iteration
`opt is None` short-circuits the condition and the first result is taken
regardless of its loss; on any later iteration the condition evaluates the
undefined name `l`, raising `NameError` — so a backend holding two or more
Results always raises here. -/
def BaseBackend.get_optimal_scan :
    List ResultRec → Option ResultRec → Option ℚ →
    Except PyErr (Option ResultRec × Option ℚ)
  | [], opt, loss => .ok (opt, loss)
  | r :: rest, none, _ => BaseBackend.get_optimal_scan rest (some r) r.loss
  | _ :: _, some _, _ => .error (.nameError "l")

/-- The parameter-reconstruction loop of `BaseBackend.get_optimal` (lines
429-442).  For a single-component path the value is stored flat; for any
longer path the descent loop executes `curr = cur[path[i]]` and the
undefined name `cur` raises `NameError`, which the surrounding
`except TypeError` does not catch. -/
def BaseBackend.get_optimal_params (db : Store) :
    List String → List (String × PVal) →
    Except PyErr (List (String × PVal))
  | [], params => .ok params
  | vid :: rest, params =>
      match db.findValue vid with
      | none => .error (.attributeError "domain")
      | some value =>
          match db.findDomain value.domain with
          | none => .error (.attributeError "path")
          | some domain =>
              match pySplit domain.path '/' with
              | [k] =>
                  BaseBackend.get_optimal_params db rest
                    (pset params k (.value value.value))
              | _ => .error (.nameError "cur")

/-- `BaseBackend.get_optimal(mode='global')` (`shadho/backend/base/db.py`,
lines 416-446): scan all stored Results, then rebuild the best result's
parameter dict.  When the store holds no Result, `opt` stays `None` and
`for value in opt.values` raises `AttributeError` (only `TypeError` is
caught), so nothing is ever reported for a run with zero results. -/
def BaseBackend.get_optimal (db : Store) :
    Except PyErr (Option ℚ × List (String × PVal) × Option Val) :=
  match BaseBackend.get_optimal_scan db.results none none with
  | .error e => .error e
  | .ok (opt, loss) =>
      match opt with
      | none => .error (.attributeError "values")
      | some r =>
          match BaseBackend.get_optimal_params db r.values [] with
          | .error e => .error e
          | .ok params => .ok (loss, params, r.results)

/-- A constant Domain at path `"a/b"`. -/
def domainAB : DomainRec :=
  { id := "d1", path := "a/b", domain := .scalar (.num 5),
    strategy := "random", scaling := .linear, exhaustive := false,
    exhaustive_idx := 0, values := [] }

/-- A Model owning the single Domain `domainAB`, priority heuristic
enabled. -/
def modelM1 : ModelRec :=
  { id := "m1", priority := some [1], complexity := some 0, rank := some 1,
    domains := ["d1"], results := [] }

/-- A store holding `modelM1` and `domainAB` and no Results. -/
def storeM1 : Store :=
  { models := [modelM1], domains := [domainAB], results := [], values := [] }

/-- C1: calling `generate` on a model with one Domain at path `"a/b"` does
not return a `(ResultId, {'a': {'b': value};})` pair — the first domain
iteration raises `NameError` at `self.update(space)` (`space` is an
undefined name), so `generate` never completes for any model with at least
one Domain. -/
theorem generate_raises_NameError_space :
    BaseBackend.generate storeM1 "m1" "r1" ["v1"] ⟨.null, 0⟩ =
      .error (.nameError "space") := by
  rfl

/-- A completed Result with loss 1 and a link to `modelM1`. -/
def resultW (i : String) : ResultRec :=
  { id := i, loss := some 1, results := none, submissions := 0,
    model := some "m1", values := [] }

/-- The empty store. -/
def storeEmpty : Store :=
  { models := [], domains := [], results := [], values := [] }

/-- A store holding exactly two Results. -/
def storeTwo : Store :=
  { models := [], domains := [], results := [resultW "r1", resultW "r2"],
    values := [] }

/-- C6: `get_optimal` raises instead of reporting.  With zero stored
Results it raises `AttributeError` (`opt` is `None` and `opt.values` is
evaluated; only `TypeError` is caught), rather than returning a null loss
and empty params; with two or more stored Results the scan's comparison
evaluates the undefined name `l` and raises `NameError`, so the
minimum-loss Result is never found. -/
theorem get_optimal_raises :
    BaseBackend.get_optimal storeEmpty = .error (.attributeError "values") ∧
      BaseBackend.get_optimal storeTwo = .error (.nameError "l") := by
  exact ⟨rfl, rfl⟩

/-- A store with `modelM1` and `n` pending Results `r0 … r(n-1)`, each
linked to the model. -/
def storeN (n : ℕ) : Store :=
  { models := [modelM1], domains := [domainAB],
    results := (List.range n).map (fun i =>
      { id := "r" ++ toString i, loss := none, results := none,
        submissions := 0, model := some "m1", values := [] }),
    values := [] }

/-- C8: registering a non-null loss when the database's global Result count
is a multiple of the update frequency raises `AttributeError` at
`self.update_priority(model)` — a method defined nowhere in the backend
hierarchy — instead of recomputing the priority and returning `True`; when
the count is not a multiple, the call returns `False`.  `register_result`
therefore never returns `True`. -/
theorem register_result_raises :
    BaseBackend.register_result (storeN 10) 10 "r0" (some (1 / 2)) none =
        .error (.attributeError "update_priority") ∧
      (BaseBackend.register_result (storeN 9) 10 "r0" (some (1 / 2))
          none).map Prod.snd = .ok false := by
  exact ⟨rfl, rfl⟩

/-- A ComputeClass (`shadho/hardware.py`): the searchspaces assigned to it
(`optimizer.searchspaces`, reset by `clear` and appended to by
`add_searchspace`) and its queue counters. -/
structure CC where
  searchspaces : List String
  current_tasks : ℤ
  max_queued_tasks : ℕ
deriving DecidableEq

/-- `ComputeClass.clear()`. -/
def CC.clear (cc : CC) : CC := { cc with searchspaces := [] }

/-- `ComputeClass.add_searchspace(s)`. -/
def CC.add_searchspace (cc : CC) (s : String) : CC :=
  { cc with searchspaces := cc.searchspaces ++ [s] }

/-- Membership / lookup in the `self.ccs` ordered dict, keyed by
ComputeClass id. -/
def ccFind (ccs : List (String × CC)) (k : String) : Option CC :=
  (ccs.find? (·.1 == k)).map (·.2)

/-- In-place mutation of one ComputeClass in `self.ccs`. -/
def ccSet (ccs : List (String × CC)) (k : String) (f : CC → CC) :
    List (String × CC) :=
  ccs.map (fun p => if p.1 == k then (p.1, f p.2) else p)

/-- Python list indexing: non-negative indices are direct, negative indices
wrap from the end, anything else raises `IndexError` (`none`). -/
def pyListGet (l : List String) (i : ℤ) : Option String :=
  if 0 ≤ i then l.get? i.toNat
  else if 0 ≤ i + l.length then l.get? (i + l.length).toNat
  else none

/-- The loop state of `assign_to_ccs`: the index `j` into `smaller`, the
step boundary `y`, and the mutated ComputeClass dict. -/
structure AssignState where
  j : ℕ
  y : ℚ
  ccs : List (String × CC)
deriving DecidableEq

/-- One iteration `i` of the `for i in range(len(larger))` loop of
`Shadho.assign_to_ccs` (`shadho/shadho.py`, lines 421-444).  After possibly
advancing `j` past a step boundary, the branch on `smaller[j] in self.ccs`
runs; in either branch the second (neighbor) assignment evaluates
`self.searchspaces[...]` — a Python list indexed with a searchspace id
string — which raises `TypeError`; looking up a searchspace id as a key of
`self.ccs` raises `KeyError`; an out-of-range neighbor raises
`IndexError`. -/
def Shadho.assign_step (larger smaller : List String)
    (x m n : ℚ) (st : AssignState) (i : ℕ) : Except PyErr AssignState :=
  let jy :=
    if (i : ℚ) > (Int.ceil st.y : ℚ) then (st.j + 1, st.y + x)
    else (st.j, st.y)
  match pyListGet smaller (jy.1 : ℤ) with
  | none => .error .indexError
  | some sj =>
      if (ccFind st.ccs sj).isSome then
        match pyListGet larger (i : ℤ) with
        | none => .error .indexError
        | some li =>
            let ccs1 := ccSet st.ccs sj (CC.add_searchspace · li)
            let nb : ℤ := if (jy.1 : ℚ) < m then (jy.1 : ℤ) + 1
                          else (jy.1 : ℤ) - 1
            match pyListGet smaller nb with
            | none => .error .indexError
            | some snb =>
                if (ccFind ccs1 snb).isSome then .error .typeError
                else .error (.keyError snb)
      else
        match pyListGet larger (i : ℤ) with
        | none => .error .indexError
        | some li =>
            match ccFind st.ccs li with
            | none => .error (.keyError li)
            | some _ =>
                let ccs1 := ccSet st.ccs li (CC.add_searchspace · sj)
                let nbi : ℤ := if (i : ℚ) < n then (i : ℤ) + 1
                               else (i : ℤ) - 1
                match pyListGet larger nbi with
                | none => .error .indexError
                | some lnb =>
                    if (ccFind ccs1 lnb).isSome then .error .typeError
                    else .error (.keyError lnb)

/-- The clearing loop `for cc in self.ccs: cc.clear()` (`shadho/shadho.py`,
lines 399-400).  Iterating the `self.ccs` `OrderedDict` yields its keys —
uuid strings — and a Python `str` has no attribute `clear`, so the first
iteration raises `AttributeError`.  Only with zero entries does the loop
complete (having cleared nothing). -/
def clearLoop : List (String × CC) → Except PyErr (List (String × CC))
  | [] => .ok []
  | _ :: _ => .error (.attributeError "clear")

/-- `Shadho.assign_to_ccs()` (`shadho/shadho.py`, lines 369-452) for two or
more ComputeClasses.  The searchspaces arrive already ordered by
`sort_spaces` (the behavior proved below does not depend on the order).
The method then runs the clearing loop, which iterates the dict's string
keys and raises `AttributeError` on the first one (`clearLoop`) — so the
rest of the method is unreachable whenever `self.ccs` is non-empty.  That
remainder is translated regardless: `larger` is whichever of the
searchspace list and the ComputeClass-id list is longer, but `smaller` is
chosen by `ccids if larger == len(self.searchspaces) else
self.searchspaces`, and a Python list never equals an int, so `smaller`
would always be the searchspace list; with no searchspace,
`x = len(larger)/len(smaller)` would raise `ZeroDivisionError`.  The zero-
and one-ComputeClass branches (which synthesize a catch-all class or
append the entire searchspace list as one element) fall outside every
claim verified here and are modelled as the identity. -/
def Shadho.assign_to_ccs (ccs : List (String × CC))
    (searchspaces : List String) : Except PyErr (List (String × CC)) :=
  if 1 < ccs.length then
    match clearLoop ccs with
    | .error e => .error e
    | .ok ccs0 =>
        let ccids := ccs0.map (·.1)
        let larger :=
          if ccids.length ≤ searchspaces.length then searchspaces else ccids
        let smaller := searchspaces
        if searchspaces.length = 0 then .error .zeroDivisionError
        else
          let x : ℚ := (larger.length : ℚ) / (smaller.length : ℚ)
          let y : ℚ := x - 1
          let m : ℚ := (smaller.length : ℚ) / 2
          let n : ℚ := (larger.length : ℚ) / 2
          match (List.range larger.length).foldlM
              (Shadho.assign_step larger smaller x m n)
              { j := 0, y := y, ccs := ccs0 } with
          | .error e => .error e
          | .ok st => .ok st.ccs
  else .ok ccs

/-- An empty ComputeClass with the default queue bound. -/
def ccW : CC := { searchspaces := [], current_tasks := 0,
                  max_queued_tasks := 100 }

/-- C4: with two ComputeClasses and two Models, `assign_to_ccs` raises
`AttributeError` in the clearing loop — `for cc in self.ccs: cc.clear()`
iterates the dict's uuid-string keys, and a `str` has no `clear` method —
before `larger`/`smaller` are computed and before the assignment loop
runs.  No Model is ever assigned to any ComputeClass. -/
theorem assign_to_ccs_raises :
    Shadho.assign_to_ccs [("cc1", ccW), ("cc2", ccW)] ["ss1", "ss2"] =
      .error (.attributeError "clear") := by
  rfl

/-- The observable state of one trial and its owning ComputeClass slot:
the Result's `submissions` counter, the number of times the trial's task
has been handed to the task manager, whether the trial has been dropped as
permanently failed, and the ComputeClass's `current_tasks` counter
(relative to its value when the trial was first dispatched). -/
structure TrialSt where
  submissions : ℕ
  dispatched : ℕ
  dropped : Bool
  current_tasks : ℤ
deriving DecidableEq

/-- Modelled from the spec: `registerFailure(resultId) -> submissionCount`
— the Repository contract "increments submissions, returns the new count".
The implementation behind `self.register_result` in `Shadho.failure` lives
in the external `pyrameter` package, not in this repository's sources; the
in-repo `BaseBackend.register_result` leaves resubmission logic as a TODO. -/
def registerFailure (st : TrialSt) : ℕ × TrialSt :=
  let s := st.submissions + 1
  (s, { st with submissions := s })

/-- `Shadho.failure(tag, resub)` (`shadho/shadho.py`, lines 507-542):
register the failure; if the task is retryable and the returned submission
count is below `max_resubmissions`, re-dispatch the same tag and
parameters (`manager.add_task`), otherwise decrement the owning
ComputeClass's `current_tasks` and drop the trial. -/
def Shadho.failure (max_resubmissions : ℕ) (resub : Bool) (st : TrialSt) :
    TrialSt :=
  let r := registerFailure st
  if resub ∧ r.1 < max_resubmissions then
    { r.2 with dispatched := r.2.dispatched + 1 }
  else
    { r.2 with dropped := true, current_tasks := r.2.current_tasks - 1 }

/-- A trial's failure history: each element is the `resub` flag the task
manager reports for one failure of the trial's outstanding task.  A dropped
trial has no outstanding task, so no further failure event can arrive for
it — subsequent events leave the state unchanged. -/
def runFailures (max_resubmissions : ℕ) : List Bool → TrialSt → TrialSt
  | [], st => st
  | r :: rest, st =>
      if st.dropped then st
      else runFailures max_resubmissions rest
        (Shadho.failure max_resubmissions r st)

/-- The state right after a trial's first dispatch: `submissions = 0`
(`Result.__init__`), dispatched once, not dropped, and the ComputeClass
slot still held. -/
def initTrial : TrialSt :=
  { submissions := 0, dispatched := 1, dropped := false, current_tasks := 0 }

/-- Case analysis of one `Shadho.failure` step. -/
theorem failure_cases (maxr : ℕ) (resub : Bool) (st : TrialSt) :
    (resub = true ∧ st.submissions + 1 < maxr →
        Shadho.failure maxr resub st =
          { st with submissions := st.submissions + 1,
                    dispatched := st.dispatched + 1 }) ∧
      (¬(resub = true ∧ st.submissions + 1 < maxr) →
        Shadho.failure maxr resub st =
          { st with submissions := st.submissions + 1, dropped := true,
                    current_tasks := st.current_tasks - 1 }) := by
  constructor
  · intro h
    simp only [Shadho.failure, registerFailure]
    rw [if_pos h]
  · intro h
    simp only [Shadho.failure, registerFailure]
    rw [if_neg h]

/-- Invariant carried along any failure history: the dispatch count is
bounded, and a dropped trial has released exactly one queue slot. -/
theorem runFailures_inv (maxr : ℕ) :
    ∀ (flags : List Bool) (st : TrialSt),
      (st.dropped = false →
        st.dispatched ≤ st.submissions + 1 ∧ st.current_tasks = 0) →
      (st.dropped = true → st.current_tasks = -1) →
      (st.dispatched ≤ maxr ∨ st.dispatched ≤ 1) →
      ((runFailures maxr flags st).dispatched ≤ maxr ∨
          (runFailures maxr flags st).dispatched ≤ 1) ∧
        ((runFailures maxr flags st).dropped = true →
          (runFailures maxr flags st).current_tasks = -1) := by
  intro flags
  induction flags with
  | nil => intro st h1 h2 h3; exact ⟨h3, h2⟩
  | cons r rest ih =>
      intro st h1 h2 h3
      rw [runFailures]
      by_cases hd : st.dropped = true
      · rw [if_pos hd]; exact ⟨h3, fun _ => h2 hd⟩
      · have hd2 : st.dropped = false := by simpa using hd
        rw [if_neg hd]
        obtain ⟨hdisp, hct⟩ := h1 hd2
        by_cases hr : r = true ∧ st.submissions + 1 < maxr
        · rw [(failure_cases maxr r st).1 hr]
          apply ih
          · intro _; dsimp only; exact ⟨by omega, hct⟩
          · intro hcontra; dsimp only at hcontra
            rw [hd2] at hcontra; exact absurd hcontra (by simp)
          · dsimp only; left; omega
        · rw [(failure_cases maxr r st).2 hr]
          apply ih
          · intro hcontra; dsimp only at hcontra
            exact absurd hcontra (by simp)
          · intro _; dsimp only; omega
          · dsimp only; exact h3

/-- A dropped trial is a fixpoint of any further failure events. -/
theorem runFailures_dropped (maxr : ℕ) (more : List Bool) (st : TrialSt)
    (h : st.dropped = true) : runFailures maxr more st = st := by
  cases more with
  | nil => rfl
  | cons r rest => simp [runFailures, h]

/-- C7: a trial with `max_resubmissions = N` is dispatched at most `N + 1`
times in total over any failure history, and once dropped (the bound
exceeded or the failure non-retryable) its ComputeClass's `current_tasks`
has been decremented by one and the trial is never re-dispatched — every
further event leaves the state unchanged. -/
theorem failure_resubmission_bound (max_resubmissions : ℕ)
    (flags : List Bool) :
    (runFailures max_resubmissions flags initTrial).dispatched ≤
        max_resubmissions + 1 ∧
      ((runFailures max_resubmissions flags initTrial).dropped = true →
        (runFailures max_resubmissions flags initTrial).current_tasks = -1 ∧
          ∀ more : List Bool,
            runFailures max_resubmissions more
                (runFailures max_resubmissions flags initTrial) =
              runFailures max_resubmissions flags initTrial) := by
  have h := runFailures_inv max_resubmissions flags initTrial
    (fun _ => ⟨by simp [initTrial], rfl⟩) (by simp [initTrial])
    (by simp [initTrial])
  refine ⟨by rcases h.1 with h1 | h1 <;> omega, fun hdrop => ⟨h.2 hdrop, ?_⟩⟩
  intro more
  exact runFailures_dropped max_resubmissions more _ hdrop

/-- Witness for `failure_resubmission_bound`: with `max_resubmissions = 2`
and three retryable failures, the trial is dispatched twice (≤ 3), then
dropped with its queue slot released. -/
theorem failure_resubmission_bound_witness :
    (runFailures 2 [true, true, true] initTrial).dispatched ≤ 3 ∧
      (runFailures 2 [true, true, true] initTrial).current_tasks = -1 := by
  have h := failure_resubmission_bound 2 [true, true, true]
  exact ⟨h.1, (h.2 (by decide)).1⟩
